import Mathlib

/-!
Verification development for the KYRealignmentMap results pipeline
(`scripts/build_ky_results_json.py`).

The definitions below are a shallow embedding of that script.  Python strings
are Lean `String` (logically a `List Char`); Python dicts are association
lists with assignment modelled as cons (lookup finds the newest binding
first, matching overwrite semantics) or explicit in-place update
(`updateA`); pandas vote cleaning is modelled over an integer grammar, noted
at the definition.  Python `str.strip` strips ASCII whitespace, modelled by
trimming `Char.isWhitespace` characters; all data handled by the script is
ASCII, where the two coincide.
-/

set_option maxRecDepth 4000000

namespace KYPipeline

/-- `normalize_county_key` (build_ky_results_json.py:40-43): drop every
character outside `[A-Za-z0-9 .-]`, collapse whitespace runs to one space,
and trim.  After the filter the only whitespace left is a literal space, so
collapsing is done by splitting on spaces and dropping empty pieces. -/
def allowedKeyChar (c : Char) : Bool :=
  c.isAlphanum || c == ' ' || c == '.' || c == '-'

/-- Collapse runs of spaces to a single space and trim both ends (after the
character filter the only whitespace left is the literal space). -/
def collapseSpacesAux : List Char → Bool → List Char
  | [], _ => []
  | c :: t, pendingSpace =>
    if c == ' ' then collapseSpacesAux t true
    else if pendingSpace then ' ' :: c :: collapseSpacesAux t false
    else c :: collapseSpacesAux t false

def collapseSpaces (l : List Char) : List Char :=
  collapseSpacesAux (l.dropWhile (fun c => c == ' ')) false

def normalize_county_key (text : String) : String :=
  (collapseSpaces (text.data.filter allowedKeyChar)).asString

/-- Trim of leading/trailing whitespace, Python `str.strip()`. -/
def pyStrip (s : String) : String :=
  ((s.data.dropWhile Char.isWhitespace).reverse.dropWhile Char.isWhitespace).reverse.asString

/-- Python `str.upper()` (ASCII scope). -/
def pyUpper (s : String) : String :=
  (s.data.map Char.toUpper).asString

/-- Python `str.lower()` (ASCII scope). -/
def pyLower (s : String) : String :=
  (s.data.map Char.toLower).asString

/-- Python `str.title()` (ASCII scope): a letter is uppercased when the
previous character is not a letter, lowercased otherwise. -/
def pyTitleAux : List Char → Bool → List Char
  | [], _ => []
  | c :: rest, prevCased =>
    if c.isAlpha then
      (if prevCased then c.toLower else c.toUpper) :: pyTitleAux rest true
    else
      c :: pyTitleAux rest false

def pyTitle (s : String) : String :=
  (pyTitleAux s.data false).asString

/-- Python substring test `needle in hay`. -/
def strContainsSub (hay needle : String) : Bool :=
  decide (needle.data <:+: hay.data)

/-- `re.sub(r"\s+COUNTY$", "", key)`: both call sites pass outputs of
`normalize_county_key`, in which the only whitespace is single spaces, so
the regex amounts to removing a trailing `" COUNTY"` together with any
further trailing spaces. -/
def strip_county_suffix (key : String) : String :=
  let r := key.data.reverse
  if r.take 7 = "YTNUOC ".data then
    (((r.drop 6).dropWhile (fun c => c == ' ')).reverse).asString
  else key

/-- Association-list lookup (Python dict read). -/
def lookupA {V : Type} : List (String × V) → String → Option V
  | [], _ => none
  | (k, v) :: t, key => if k = key then some v else lookupA t key

/-- Association-list update in place: replace the first binding of `k`,
appending a fresh binding when absent (Python dict `setdefault`-then-mutate
shape used by the aggregation loop). -/
def updateA {V : Type} (k : String) (f : Option V → V) : List (String × V) → List (String × V)
  | [] => [(k, f none)]
  | (k', v) :: t => if k' = k then (k', f (some v)) :: t else (k', v) :: updateA k f t

/-- Modelled from the spec: the county reference table
`data/county_name_lookup.csv` is a data asset of this repository that is
not under `src/` (only its readers are).  Spec §6: it provides, per
canonical county, the canonical name, the full "X County" label and a
normalized match key; §3 fixes the canonical set at 120 identities.  The
120 canonical spellings below follow the canonical lists that do appear in
the repository's scripts; the match key is modelled as the uppercased
normalized name, the convention shared by the repository's other lookup
users. -/
structure CountyRow where
  county_name : String
  county_namelsad : String
  match_key_normalized : String

def ky_county_names : List String := [
  "Adair", "Allen", "Anderson", "Ballard", "Barren", "Bath", "Bell", "Boone",
  "Bourbon", "Boyd", "Boyle", "Bracken", "Breathitt", "Breckinridge", "Bullitt",
  "Butler", "Caldwell", "Calloway", "Campbell", "Carlisle", "Carroll", "Carter",
  "Casey", "Christian", "Clark", "Clay", "Clinton", "Crittenden", "Cumberland",
  "Daviess", "Edmonson", "Elliott", "Estill", "Fayette", "Fleming", "Floyd",
  "Franklin", "Fulton", "Gallatin", "Garrard", "Grant", "Graves", "Grayson",
  "Green", "Greenup", "Hancock", "Hardin", "Harlan", "Harrison", "Hart",
  "Henderson", "Henry", "Hickman", "Hopkins", "Jackson", "Jefferson", "Jessamine",
  "Johnson", "Kenton", "Knott", "Knox", "Larue", "Laurel", "Lawrence", "Lee",
  "Leslie", "Letcher", "Lewis", "Lincoln", "Livingston", "Logan", "Lyon",
  "Madison", "Magoffin", "Marion", "Marshall", "Martin", "Mason", "McCracken",
  "McCreary", "McLean", "Meade", "Menifee", "Mercer", "Metcalfe", "Monroe",
  "Montgomery", "Morgan", "Muhlenberg", "Nelson", "Nicholas", "Ohio", "Oldham",
  "Owen", "Owsley", "Pendleton", "Perry", "Pike", "Powell", "Pulaski",
  "Robertson", "Rockcastle", "Rowan", "Russell", "Scott", "Shelby", "Simpson",
  "Spencer", "Taylor", "Todd", "Trigg", "Trimble", "Union", "Warren",
  "Washington", "Wayne", "Webster", "Whitley", "Wolfe", "Woodford"]

def county_table : List CountyRow :=
  ky_county_names.map (fun n =>
    { county_name := n
      county_namelsad := n ++ " County"
      match_key_normalized := pyUpper (normalize_county_key n) })

/-- `load_county_lookup` (build_ky_results_json.py:46-97), normalized-name
map part: for each row with a nonempty county name, register the normalized
name, normalized namelsad, normalized match key, and the name with a
trailing COUNTY token stripped, each mapping to the raw `county_name`.
Within one row all keys carry the same value, so the Python set-iteration
order is immaterial; dict assignment is modelled by cons (newest first). -/
def registerRow (m : List (String × String)) (row : CountyRow) : List (String × String) :=
  if pyStrip row.county_name = "" then m
  else
    let name := pyStrip row.county_name
    let keys := [normalize_county_key name,
                 normalize_county_key row.county_namelsad,
                 normalize_county_key row.match_key_normalized,
                 strip_county_suffix (normalize_county_key name)]
    keys.foldl (fun m k => if k = "" then m else (k, name) :: m) m

/-- The module-level `COUNTY_NORMALIZED_MAP`, including the two legacy
spelling variants added at build_ky_results_json.py:94-95. -/
def COUNTY_NORMALIZED_MAP : List (String × String) :=
  (normalize_county_key "Bulter", "Butler") ::
  (normalize_county_key "Breckenridge", "Breckinridge") ::
  county_table.foldl registerRow []

/-- `load_county_lookup`, abbreviation map part (lines 78-91): the first
four A-Z letters of the uppercased name, registered first-wins
(`setdefault`) with the title-cased name as value, then overridden by the
hand-curated SOS/TXT quirk table. -/
def build_abbr_base (rows : List CountyRow) : List (String × String) :=
  rows.foldl (fun m row =>
    let alpha := (pyUpper row.county_name).data.filter (fun c => c.isUpper)
    if alpha.length ≥ 4 then
      let k := (alpha.take 4).asString
      if (lookupA m k).isSome then m else m ++ [(k, pyTitle row.county_name)]
    else m) []

def COUNTY_ABBR_MAP : List (String × String) :=
  [("GREU", "Greenup"), ("KENT", "Kenton"), ("MASO", "Mason"),
   ("MCCK", "McCracken"), ("MCCR", "McCreary"), ("MCLE", "McLean")] ++
  build_abbr_base county_table

/-- `canonicalize_county_name` (build_ky_results_json.py:103-116).  Note
the final branch: an unresolved raw string is returned stripped but
otherwise unchanged, not rejected. -/
def canonicalize_county_name (raw_county : String) : String :=
  let key := normalize_county_key raw_county
  if key = "" then ""
  else
    match lookupA COUNTY_NORMALIZED_MAP key with
    | some v => v
    | none =>
      match lookupA COUNTY_NORMALIZED_MAP (strip_county_suffix key) with
      | some v => v
      | none => pyStrip raw_county

/-- `party_bucket` (build_ky_results_json.py:119-127).  The Python
`isinstance(party, str)` guard cannot be falsified in this typed embedding,
where the party field is always a string. -/
def party_bucket (party : String) : String :=
  let p := pyUpper (pyStrip party)
  if p = "DEM" ∨ p = "DEMOCRAT" ∨ p = "D" then "dem"
  else if p = "REP" ∨ p = "REPUBLICAN" ∨ p = "R" ∨ p = "GOP" then "rep"
  else "other"

/-- Competitiveness record returned by `get_competitiveness` and stored
under the `competitiveness` key. -/
structure Comp where
  category : String
  party : String
  code : String
  color : String
deriving DecidableEq, Repr

/-- The `colors` table (build_ky_results_json.py:132-141) as
category ↦ (REP shade, DEM shade). -/
def colorsTable : List (String × (String × String)) := [
  ("Annihilation", ("#67000d", "#08306b")),
  ("Dominant", ("#a50f15", "#08519c")),
  ("Stronghold", ("#cb181d", "#3182bd")),
  ("Safe", ("#ef3b2c", "#6baed6")),
  ("Likely", ("#fb6a4a", "#9ecae1")),
  ("Lean", ("#fcae91", "#c6dbef")),
  ("Tilt", ("#fee8c8", "#e1f5fe")),
  ("Tossup", ("#f7f7f7", "#f7f7f7"))]

/-- `colors[category][winner]`.  The script only ever calls this with
winner "DEM" or "REP"; any other access would raise a KeyError, modelled
as the empty string. -/
def colorFor (category winner : String) : String :=
  match lookupA colorsTable category with
  | none => ""
  | some p => if winner = "REP" then p.1 else if winner = "DEM" then p.2 else ""

def code_parts : List (String × String) := [
  ("Annihilation", "ANNIHILATION"), ("Dominant", "DOMINANT"),
  ("Stronghold", "STRONGHOLD"), ("Safe", "SAFE"), ("Likely", "LIKELY"),
  ("Lean", "LEAN"), ("Tilt", "TILT"), ("Tossup", "TOSSUP")]

/-- `get_competitiveness` (build_ky_results_json.py:130-178).  The Python
float `margin_pct` is modelled as an exact rational; the literal thresholds
5.50 and 0.50 are written `mkRat 11 2` and `mkRat 1 2`. -/
def get_competitiveness (margin_pct : ℚ) (winner_party : String) : Comp :=
  let category :=
    if margin_pct ≥ 40 then "Annihilation"
    else if margin_pct ≥ 30 then "Dominant"
    else if margin_pct ≥ 20 then "Stronghold"
    else if margin_pct ≥ 10 then "Safe"
    else if margin_pct ≥ mkRat 11 2 then "Likely"
    else if margin_pct ≥ 1 then "Lean"
    else if margin_pct ≥ mkRat 1 2 then "Tilt"
    else "Tossup"
  { category := category
    party := winner_party
    code := winner_party ++ "_" ++ (lookupA code_parts category).getD ""
    color := colorFor category winner_party }

/-- `get_contest_name` (build_ky_results_json.py:181-204). -/
def get_contest_name (office : String) : String :=
  let ol := pyLower (pyStrip office)
  if strContainsSub ol "president" then "President"
  else if strContainsSub ol "senate" then "U.S. Senate"
  else if strContainsSub ol "governor" then
    (if strContainsSub ol "lieutenant" then "Lieutenant Governor" else "Governor")
  else if strContainsSub ol "attorney" then "Attorney General"
  else if strContainsSub ol "secretary" then "Secretary of State"
  else if strContainsSub ol "treasurer" then "State Treasurer"
  else if strContainsSub ol "auditor" then "Auditor of Public Accounts"
  else if strContainsSub ol "agriculture" || strContainsSub ol "commissioner" then
    "Commissioner of Agriculture"
  else office

/-- `STATEWIDE_OFFICES` and `is_statewide_office`
(build_ky_results_json.py:383-395). -/
def STATEWIDE_OFFICES : List String := [
  "president",
  "u.s. senate", "united states senate", "us senate",
  "u.s. senator", "united states senator", "us senator",
  "governor", "lieutenant governor", "attorney general",
  "secretary of state", "state treasurer", "treasurer",
  "auditor of public accounts", "state auditor",
  "commissioner of agriculture"]

def is_statewide_office (office : String) : Bool :=
  let text := pyLower (pyStrip office)
  STATEWIDE_OFFICES.any (fun tok => strContainsSub text tok)

/-- Vote cleaning (build_ky_results_json.py:370-377): commas stripped, the
cell parsed numerically with parse failures coerced to 0.  `pd.to_numeric`
is modelled on the integer grammar `[+-]?digits` after trimming; numeric
forms outside that grammar (decimals, exponents) are out of modelled
scope, every other cell is a parse failure and becomes 0, exactly the
`errors="coerce" / fillna(0)` path. -/
def stripCommas (s : String) : String :=
  (s.data.filter (fun c => c ≠ ',')).asString

def parseDigits : List Char → Option Nat
  | [] => none
  | l => l.foldl (fun acc c =>
      match acc with
      | none => none
      | some n => if c.isDigit then some (n * 10 + (c.toNat - 48)) else none)
      (some 0)

def parseIntOpt (s : String) : Option Int :=
  match (pyStrip s).data with
  | [] => none
  | c :: rest =>
    if c = '-' then (parseDigits rest).map (fun n => -(n : Int))
    else if c = '+' then (parseDigits rest).map (fun n => (n : Int))
    else (parseDigits (c :: rest)).map (fun n => (n : Int))

def clean_votes (s : String) : Int :=
  (parseIntOpt (stripCommas s)).getD 0

/-- Python's bank rounding `round(x, 2)`, on exact rationals: round
`100 * x` to the nearest integer, ties to even, divide back.  (CPython
rounds the binary-float value; on the decimal results produced here the two
agree except on ties that are not exactly representable, which is outside
the modelled scope.) -/
def ratFloorZ (q : ℚ) : ℤ := Int.fdiv q.num (q.den : ℤ)

def roundHalfEven (q : ℚ) : ℤ :=
  let f := ratFloorZ q
  let r := q - (f : ℚ)
  if r < 1/2 then f
  else if r > 1/2 then f + 1
  else if f % 2 = 0 then f else f + 1

def round2 (q : ℚ) : ℚ := ((roundHalfEven (q * 100) : ℤ) : ℚ) / 100

/-- The per-county mutable dict created at build_ky_results_json.py:422-441.
The initial `competitiveness = {}` is `none`; `_dem_max`/`_rep_max` are
absent until first written and read through `.get(_, 0)`, modelled as
fields starting at 0 (the finalize `pop` is a no-op on the fields the
output keeps). -/
structure CountyResult where
  contest_name : String
  year : Int
  county : String
  dem_votes : Int
  rep_votes : Int
  other_votes : Int
  total_votes : Int
  two_party_total : Int
  dem_candidate : String
  rep_candidate : String
  winner : String
  margin : Int
  margin_pct : ℚ
  competitiveness : Option Comp
  all_parties : List (String × Int)
  dem_max : Int
  rep_max : Int
deriving DecidableEq, Repr

def newCountyResult (office : String) (year : Int) (county : String) : CountyResult :=
  { contest_name := get_contest_name office
    year := year
    county := county
    dem_votes := 0, rep_votes := 0, other_votes := 0, total_votes := 0
    two_party_total := 0
    dem_candidate := "", rep_candidate := ""
    winner := ""
    margin := 0, margin_pct := 0
    competitiveness := none
    all_parties := []
    dem_max := 0, rep_max := 0 }

/-- One ingestion step on a county aggregate
(build_ky_results_json.py:443-457): the record's votes are added to the
bucket chosen by `party_bucket`, the per-party candidate maximum is
replaced only on a strictly greater vote count, and the votes are always
added to `total_votes`. -/
def applyBucket (candidate : String) (votes : Int) (party : String)
    (cr : CountyResult) : CountyResult :=
  let b := party_bucket party
  let cr1 :=
    if b = "dem" then
      let cr' := { cr with dem_votes := cr.dem_votes + votes }
      if votes > cr.dem_max then
        { cr' with dem_max := votes, dem_candidate := candidate }
      else cr'
    else if b = "rep" then
      let cr' := { cr with rep_votes := cr.rep_votes + votes }
      if votes > cr.rep_max then
        { cr' with rep_max := votes, rep_candidate := candidate }
      else cr'
    else
      { cr with other_votes := cr.other_votes + votes }
  { cr1 with total_votes := cr1.total_votes + votes }

/-- `results_by_year` nesting: year key → office key → contest key →
county key → aggregate.  The Python contest dict is `{"results": {...}}`
with no other key, modelled as the results mapping itself. -/
abbrev ResultsT := List (String × CountyResult)
abbrev OfficeT := List (String × ResultsT)
abbrev YearT := List (String × OfficeT)
abbrev Tree := List (String × YearT)

/-- One row of `combined_df` as read inside the aggregation loop
(build_ky_results_json.py:399-406): year already numeric, votes already
cleaned to an integer. -/
structure Row where
  year : Int
  county : String
  office : String
  district : String
  candidate : String
  party : String
  votes : Int

def skip_candidates : List String := ["", "Over Votes", "Under Votes", "Total Votes"]

/-- The aggregation loop body (build_ky_results_json.py:399-457). -/
def ingest (tree : Tree) (row : Row) : Tree :=
  let county := pyStrip row.county
  let office := pyStrip row.office
  let district := pyStrip row.district
  let candidate := pyTitle (pyStrip row.candidate)
  let party := pyStrip row.party
  if candidate ∈ skip_candidates ∨ party = "" then tree
  else if ¬ is_statewide_office office then tree
  else
    let contest_key := if district = "" then office else office ++ " - " ++ district
    let officeKey := if office = "" then "Unknown" else office
    updateA (toString row.year) (fun yd =>
      updateA officeKey (fun od =>
        updateA contest_key (fun cd =>
          updateA county (fun cr =>
              applyBucket candidate row.votes party
                (cr.getD (newCountyResult office row.year county)))
            (cd.getD []))
          (od.getD []))
        (yd.getD [])) tree

/-- A raw combined row before the dataframe-level cleaning: county, party
and votes still carry their source text.  (The year coercion of lines
378-380 is upstream of everything the claims touch; year is kept numeric.) -/
structure RawRow where
  year : Int
  county : String
  office : String
  district : String
  candidate : String
  party : String
  votes : String

/-- The dataframe-level per-row transformations applied before the loop:
`party_bucket` at CSV load (line 351), county canonicalization (line 368)
and vote cleaning (lines 370-377). -/
def preprocess (r : RawRow) : Row :=
  { year := r.year
    county := canonicalize_county_name r.county
    office := r.office
    district := r.district
    candidate := r.candidate
    party := party_bucket r.party
    votes := clean_votes r.votes }

/-- Rows whose canonicalized county is blank are dropped (line 369). -/
def pipelineRows (rows : List RawRow) : List Row :=
  (rows.map preprocess).filter (fun r => pyStrip r.county ≠ "")

def runPipeline (rows : List RawRow) : Tree :=
  (pipelineRows rows).foldl ingest []

/-- The finalize pass body (build_ky_results_json.py:460-501). -/
def finalize (data : CountyResult) : CountyResult :=
  let dem := data.dem_votes
  let rep := data.rep_votes
  let other := data.other_votes
  let total := data.total_votes
  let two_party_total := dem + rep
  let all_parties :=
    (if dem > 0 then [("DEM", dem)] else []) ++
    (if rep > 0 then [("REP", rep)] else []) ++
    (if other > 0 then [("OTHER", other)] else [])
  let margin := dem - rep
  let margin_pct : ℚ :=
    if total ≠ 0 then round2 (((|margin| : ℤ) : ℚ) / (total : ℚ) * 100) else 0
  -- the source's single three-way branch assigns `winner` and
  -- `competitiveness` together; it is written here as two copies of the
  -- same three-way branch, one per assigned key
  let winner :=
    if dem > rep then "DEM" else if rep > dem then "REP" else "TIE"
  let comp : Comp :=
    if dem > rep then get_competitiveness margin_pct "DEM"
    else if rep > dem then get_competitiveness margin_pct "REP"
    else { category := "Tossup", party := "TIE",
           code := "TIE_TOSSUP", color := "#f7f7f7" }
  { data with
    two_party_total := two_party_total
    all_parties := all_parties
    margin := margin
    margin_pct := margin_pct
    winner := winner
    competitiveness := some comp }

def finalizeTree (t : Tree) : Tree :=
  t.map (fun y => (y.1, y.2.map (fun o => (o.1, o.2.map (fun c =>
    (c.1, c.2.map (fun r => (r.1, finalize r.2))))))))

def lookupCell (t : Tree) (year office contest county : String) : Option CountyResult :=
  (((lookupA t year).bind (fun yd => lookupA yd office)).bind
    (fun od => lookupA od contest)).bind (fun cd => lookupA cd county)

/-! ### Association-list helper lemmas -/

theorem lookupA_mem {V : Type} {l : List (String × V)} {k : String} {v : V}
    (h : lookupA l k = some v) : (k, v) ∈ l := by
  induction l with
  | nil => simp [lookupA] at h
  | cons p t ih =>
    obtain ⟨k', v'⟩ := p
    by_cases hk : k' = k
    · subst hk
      simp [lookupA] at h
      simp [h]
    · simp [lookupA, hk] at h
      exact List.mem_cons_of_mem _ (ih h)

theorem updateA_forall {V : Type} (Q : V → Prop) (k : String) (f : Option V → V)
    (l : List (String × V)) (hl : ∀ x ∈ l, Q x.2)
    (hf : ∀ o : Option V, (∀ v, o = some v → Q v) → Q (f o)) :
    ∀ x ∈ updateA k f l, Q x.2 := by
  induction l with
  | nil =>
    intro x hx
    simp [updateA] at hx
    subst hx
    exact hf none (by simp)
  | cons p t ih =>
    obtain ⟨k', v'⟩ := p
    intro x hx
    by_cases hk : k' = k
    · simp only [updateA, if_pos hk] at hx
      rcases List.mem_cons.mp hx with hx | hx
      · subst hx
        exact hf (some v') (by intro v hv; cases hv; exact hl (k', v') (by simp))
      · exact hl x (List.mem_cons_of_mem _ hx)
    · simp only [updateA, if_neg hk] at hx
      rcases List.mem_cons.mp hx with hx | hx
      · subst hx
        exact hl (k', v') (by simp)
      · exact ih (fun z hz => hl z (List.mem_cons_of_mem _ hz)) x hx

theorem lookupA_map {V W : Type} (g : V → W) (l : List (String × V)) (k : String) :
    lookupA (l.map (fun p => (p.1, g p.2))) k = (lookupA l k).map g := by
  induction l with
  | nil => simp [lookupA]
  | cons p t ih =>
    by_cases hk : p.1 = k
    · simp [lookupA, hk]
    · simp [lookupA, hk, ih]

/-! ### The per-cell conservation invariant (claim C3) -/

def conserves (cr : CountyResult) : Prop :=
  cr.total_votes = cr.dem_votes + cr.rep_votes + cr.other_votes

def treeInv (P : CountyResult → Prop) (t : Tree) : Prop :=
  ∀ y ∈ t, ∀ o ∈ y.2, ∀ c ∈ o.2, ∀ r ∈ c.2, P r.2

theorem applyBucket_conserves (cand : String) (v : Int) (p : String)
    (cr : CountyResult) (h : conserves cr) :
    conserves (applyBucket cand v p cr) := by
  unfold conserves at *
  by_cases hb : party_bucket p = "dem"
  · by_cases hv : v > cr.dem_max <;> simp [applyBucket, hb, hv] <;> omega
  · by_cases hb2 : party_bucket p = "rep"
    · by_cases hv : v > cr.rep_max <;> simp [applyBucket, hb, hb2, hv] <;> omega
    · simp [applyBucket, hb, hb2]
      omega

theorem newCountyResult_conserves (o : String) (y : Int) (c : String) :
    conserves (newCountyResult o y c) := by
  simp [conserves, newCountyResult]

theorem ingest_update_inv {P : CountyResult → Prop}
    (hstep : ∀ cand v p cr, P cr → P (applyBucket cand v p cr))
    (hnew : ∀ o y c, P (newCountyResult o y c))
    (k1 k2 k3 k4 cand : String) (v : Int) (p o : String) (yr : Int) (c : String)
    {t : Tree} (ht : treeInv P t) :
    treeInv P (updateA k1 (fun yd =>
      updateA k2 (fun od =>
        updateA k3 (fun cd =>
          updateA k4 (fun cr =>
              applyBucket cand v p (cr.getD (newCountyResult o yr c)))
            (cd.getD []))
          (od.getD []))
        (yd.getD [])) t) := by
  intro y hy
  refine updateA_forall (fun yd => ∀ o ∈ yd, ∀ c ∈ o.2, ∀ r ∈ c.2, P r.2) _ _ _ ?_ ?_ y hy
  · exact ht
  · intro oy hoy o ho
    refine updateA_forall (fun od => ∀ c ∈ od, ∀ r ∈ c.2, P r.2) _ _ _ ?_ ?_ o ho
    · intro x hx
      cases oy with
      | none => simp at hx
      | some yd => exact hoy yd rfl x hx
    · intro oo hoo c hc
      refine updateA_forall (fun cd => ∀ r ∈ cd, P r.2) _ _ _ ?_ ?_ c hc
      · intro x hx
        cases oo with
        | none => simp at hx
        | some od => exact hoo od rfl x hx
      · intro oc hoc r hr
        refine updateA_forall P _ _ _ ?_ ?_ r hr
        · intro x hx
          cases oc with
          | none => simp at hx
          | some cd => exact hoc cd rfl x hx
        · intro ocr hocr
          cases ocr with
          | none => exact hstep _ _ _ _ (hnew _ _ _)
          | some cr => exact hstep _ _ _ _ (hocr cr rfl)

theorem ingest_preserves_inv {P : CountyResult → Prop}
    (hstep : ∀ cand v p cr, P cr → P (applyBucket cand v p cr))
    (hnew : ∀ o y c, P (newCountyResult o y c))
    {t : Tree} (row : Row) (ht : treeInv P t) : treeInv P (ingest t row) := by
  simp only [ingest]
  split_ifs <;> first
    | exact ht
    | exact ingest_update_inv hstep hnew _ _ _ _ _ _ _ _ _ _ ht

theorem runPipeline_inv {P : CountyResult → Prop}
    (hstep : ∀ cand v p cr, P cr → P (applyBucket cand v p cr))
    (hnew : ∀ o y c, P (newCountyResult o y c))
    (rows : List RawRow) : treeInv P (runPipeline rows) := by
  unfold runPipeline
  generalize pipelineRows rows = rs
  have base : treeInv P ([] : Tree) := by intro y hy; simp at hy
  revert base
  generalize ([] : Tree) = t0
  induction rs generalizing t0 with
  | nil => intro h; simpa using h
  | cons r rest ih =>
    intro h
    simpa using ih (ingest t0 r) (ingest_preserves_inv hstep hnew r h)

theorem lookupCell_inv {P : CountyResult → Prop} {t : Tree}
    (ht : treeInv P t) {y o c cty : String} {d : CountyResult}
    (h : lookupCell t y o c cty = some d) : P d := by
  unfold lookupCell at h
  rcases Option.bind_eq_some.mp h with ⟨cd, hcd, hcty⟩
  rcases Option.bind_eq_some.mp hcd with ⟨od, hod, hc⟩
  rcases Option.bind_eq_some.mp hod with ⟨yd, hy, ho⟩
  exact ht _ (lookupA_mem hy) _ (lookupA_mem ho) _ (lookupA_mem hc) _ (lookupA_mem hcty)

theorem lookupCell_finalizeTree (t : Tree) (y o c cty : String) :
    lookupCell (finalizeTree t) y o c cty = (lookupCell t y o c cty).map finalize := by
  unfold lookupCell finalizeTree
  rw [lookupA_map]
  cases lookupA t y with
  | none => simp
  | some yd =>
    simp only [Option.map_some', Option.some_bind]
    rw [lookupA_map]
    cases lookupA yd o with
    | none => simp
    | some od =>
      simp only [Option.map_some', Option.some_bind]
      rw [lookupA_map]
      cases lookupA od c with
      | none => simp
      | some cd =>
        simp only [Option.map_some', Option.some_bind]
        rw [lookupA_map]

theorem finalize_votes (d : CountyResult) :
    (finalize d).dem_votes = d.dem_votes ∧ (finalize d).rep_votes = d.rep_votes ∧
    (finalize d).other_votes = d.other_votes ∧ (finalize d).total_votes = d.total_votes := by
  unfold finalize
  exact ⟨rfl, rfl, rfl, rfl⟩

/-- C3: vote conservation per aggregate — every finalized county aggregate
anywhere in the output tree, for any input rows, has
`total_votes = dem_votes + rep_votes + other_votes` as exact integer sums,
because each ingested record's votes are added to exactly one of the three
bucket sums and to `total_votes`. -/
theorem ky_c3_vote_conservation (rows : List RawRow) (y o c cty : String)
    (d : CountyResult)
    (h : lookupCell (finalizeTree (runPipeline rows)) y o c cty = some d) :
    d.total_votes = d.dem_votes + d.rep_votes + d.other_votes := by
  rw [lookupCell_finalizeTree] at h
  rcases Option.map_eq_some'.mp h with ⟨d0, hd0, rfl⟩
  have hc : conserves d0 :=
    lookupCell_inv
      (runPipeline_inv applyBucket_conserves
        newCountyResult_conserves rows) hd0
  obtain ⟨h1, h2, h3, h4⟩ := finalize_votes d0
  rw [h1, h2, h3, h4]
  exact hc

/-- Recover the `some` shape of a nonempty lookup without evaluating the
cell's rational fields. -/
theorem eq_some_getD {o : Option CountyResult} (h : o.isSome = true) :
    o = some (o.getD (newCountyResult "" 0 "")) := by
  cases o with
  | none => cases h
  | some d => rfl

theorem ratFloorZ_intCast (n : ℤ) : ratFloorZ ((n : ℤ) : ℚ) = n := by
  simp [ratFloorZ]

theorem roundHalfEven_intCast (n : ℤ) : roundHalfEven ((n : ℤ) : ℚ) = n := by
  unfold roundHalfEven
  rw [ratFloorZ_intCast]
  simp only [sub_self]
  norm_num

theorem round2_eq_int (q : ℚ) (n : ℤ) (h : q * 100 = ((n : ℤ) : ℚ)) :
    round2 q = ((n : ℤ) : ℚ) / 100 := by
  rw [round2, h, roundHalfEven_intCast]

def c3wRows : List RawRow :=
  [⟨2016, "Jefferson", "President", "", "Clinton", "DEM", "60,000"⟩,
   ⟨2016, "Jefferson", "President", "", "Trump", "REP", "40,000"⟩]

def c3wCell : CountyResult :=
  (lookupCell (finalizeTree (runPipeline c3wRows))
    "2016" "President" "President" "Jefferson").getD (newCountyResult "" 0 "")

theorem ky_c3_witness :
    lookupCell (finalizeTree (runPipeline c3wRows))
      "2016" "President" "President" "Jefferson" = some c3wCell ∧
    c3wCell.total_votes = c3wCell.dem_votes + c3wCell.rep_votes + c3wCell.other_votes := by
  have h : lookupCell (finalizeTree (runPipeline c3wRows))
      "2016" "President" "President" "Jefferson" = some c3wCell :=
    eq_some_getD (by decide)
  exact ⟨h, ky_c3_vote_conservation c3wRows "2016" "President" "President" "Jefferson" c3wCell h⟩

/-- C4 (amended): for every finalized aggregate,
`margin = dem_votes - rep_votes` (signed, positive favors dem),
`two_party_total = dem_votes + rep_votes`, and
`margin_pct = round(abs(margin) / total_votes * 100, 2)` whenever
`total_votes ≠ 0` — in particular whenever `total_votes > 0` — and `0`
otherwise; the denominator is `total_votes` (other bucket included), not
`two_party_total`.  The claim's guard `total_votes > 0` is amended to the
source's truthiness test `total_votes ≠ 0`, which differs on the reachable
negative totals exhibited by `ky_c4_counterexample`. -/
theorem ky_c4_margin_formula (rows : List RawRow) (y o c cty : String)
    (d : CountyResult)
    (h : lookupCell (finalizeTree (runPipeline rows)) y o c cty = some d) :
    d.margin = d.dem_votes - d.rep_votes ∧
    d.two_party_total = d.dem_votes + d.rep_votes ∧
    d.margin_pct =
      (if d.total_votes ≠ 0 then
        round2 (((|d.margin| : ℤ) : ℚ) / ((d.total_votes : ℤ) : ℚ) * 100)
      else 0) := by
  rw [lookupCell_finalizeTree] at h
  rcases Option.map_eq_some'.mp h with ⟨d0, hd0, rfl⟩
  exact ⟨rfl, rfl, rfl⟩

def c4negRow : RawRow := ⟨2020, "Jefferson", "Governor", "", "Doe", "REP", "-5"⟩

/-- The aggregate the single `c4negRow` produces before the finalize pass. -/
def c4negBase : CountyResult :=
  { contest_name := "Governor", year := 2020, county := "Jefferson"
    dem_votes := 0, rep_votes := -5, other_votes := 0, total_votes := -5
    two_party_total := 0, dem_candidate := "", rep_candidate := ""
    winner := "", margin := 0, margin_pct := 0, competitiveness := none
    all_parties := [], dem_max := 0, rep_max := 0 }

/-- C4 counterexample: a reachable finalized aggregate (one row whose votes
cell is "-5", which the cleaning step parses as −5) has
`total_votes = -5`, so the claim's `total_votes > 0` guard is false, yet
`margin_pct` is −100, not 0 as the claim requires. -/
theorem ky_c4_counterexample :
    lookupCell (finalizeTree (runPipeline [c4negRow]))
      "2020" "Governor" "Governor" "Jefferson" = some (finalize c4negBase) ∧
    ¬ (finalize c4negBase).total_votes > 0 ∧
    (finalize c4negBase).margin_pct = -100 ∧
    (finalize c4negBase).margin_pct ≠ 0 := by
  have hbase : lookupCell (runPipeline [c4negRow]) "2020" "Governor" "Governor" "Jefferson"
      = some c4negBase := by decide
  have hpct : (finalize c4negBase).margin_pct = -100 := by
    simp only [finalize, c4negBase]
    norm_num
    rw [round2_eq_int _ (-10000) (by norm_num)]
    norm_num
  refine ⟨?_, by decide, hpct, ?_⟩
  · rw [lookupCell_finalizeTree, hbase]
    rfl
  · rw [hpct]
    norm_num

def c4wRows : List RawRow :=
  [⟨2019, "Fayette", "Governor", "", "Beshear", "DEM", "30,000"⟩,
   ⟨2019, "Fayette", "Governor", "", "Bevin", "REP", "20,000"⟩]

/-- The aggregate the two `c4wRows` produce before the finalize pass. -/
def c4wBase : CountyResult :=
  { contest_name := "Governor", year := 2019, county := "Fayette"
    dem_votes := 30000, rep_votes := 20000, other_votes := 0, total_votes := 50000
    two_party_total := 0, dem_candidate := "Beshear", rep_candidate := "Bevin"
    winner := "", margin := 0, margin_pct := 0, competitiveness := none
    all_parties := [], dem_max := 30000, rep_max := 20000 }

theorem ky_c4_witness :
    lookupCell (finalizeTree (runPipeline c4wRows))
      "2019" "Governor" "Governor" "Fayette" = some (finalize c4wBase) ∧
    (finalize c4wBase).margin = (finalize c4wBase).dem_votes - (finalize c4wBase).rep_votes ∧
    (finalize c4wBase).margin_pct = 20 := by
  have hbase : lookupCell (runPipeline c4wRows) "2019" "Governor" "Governor" "Fayette"
      = some c4wBase := by decide
  have h : lookupCell (finalizeTree (runPipeline c4wRows))
      "2019" "Governor" "Governor" "Fayette" = some (finalize c4wBase) := by
    rw [lookupCell_finalizeTree, hbase]
    rfl
  have hm := ky_c4_margin_formula c4wRows "2019" "Governor" "Governor" "Fayette"
    (finalize c4wBase) h
  refine ⟨h, hm.1, ?_⟩
  simp only [finalize, c4wBase]
  norm_num
  rw [round2_eq_int _ 2000 (by norm_num)]
  norm_num

/-- Refinement reference: the competitiveness table exactly as the claim
words it — a first-match-wins step function over `margin_pct`, evaluated
top-down with thresholds 40, 30, 20, 10, 5.50, 1.00, 0.50. -/
def spec_category (margin_pct : ℚ) : String :=
  if margin_pct ≥ 40 then "Annihilation"
  else if margin_pct ≥ 30 then "Dominant"
  else if margin_pct ≥ 20 then "Stronghold"
  else if margin_pct ≥ 10 then "Safe"
  else if margin_pct ≥ mkRat 11 2 then "Likely"
  else if margin_pct ≥ 1 then "Lean"
  else if margin_pct ≥ mkRat 1 2 then "Tilt"
  else "Tossup"

/-- C5: for every `margin_pct` and winner in DEM/REP, the classification is
the first-match-wins step function of the claim's table; the code string is
`WINNER ++ "_" ++` the upper-cased category; the color is the
winner-party-specific palette entry for the category; and whenever
`dem_votes = rep_votes` the finalize pass emits winner `"TIE"` with the
fixed neutral `TIE_TOSSUP` record regardless of `margin_pct`. -/
theorem ky_c5_competitiveness (q : ℚ) (w : String) (_hw : w = "DEM" ∨ w = "REP")
    (cr : CountyResult) (htie : cr.dem_votes = cr.rep_votes) :
    (get_competitiveness q w).category = spec_category q ∧
    (get_competitiveness q w).party = w ∧
    (get_competitiveness q w).code = w ++ "_" ++ pyUpper (spec_category q) ∧
    (get_competitiveness q w).color = colorFor (spec_category q) w ∧
    (finalize cr).winner = "TIE" ∧
    (finalize cr).competitiveness =
      some { category := "Tossup", party := "TIE",
             code := "TIE_TOSSUP", color := "#f7f7f7" } := by
  refine ⟨rfl, rfl, ?_, ?_, ?_, ?_⟩
  · simp only [get_competitiveness, spec_category]
    split_ifs <;> exact congrArg _ (by decide)
  · rfl
  · simp [finalize, htie]
  · simp [finalize, htie]

theorem ky_c5_witness :
    (get_competitiveness 25 "DEM").category = spec_category 25 ∧
    (get_competitiveness 25 "DEM").code = "DEM" ++ "_" ++ pyUpper (spec_category 25) ∧
    (get_competitiveness 25 "DEM").code = "DEM_STRONGHOLD" ∧
    (finalize (newCountyResult "Governor" 2020 "Fayette")).winner = "TIE" :=
  ⟨(ky_c5_competitiveness 25 "DEM" (Or.inl rfl)
      (newCountyResult "Governor" 2020 "Fayette") rfl).1,
   (ky_c5_competitiveness 25 "DEM" (Or.inl rfl)
      (newCountyResult "Governor" 2020 "Fayette") rfl).2.2.1,
   by decide,
   (ky_c5_competitiveness 25 "DEM" (Or.inl rfl)
      (newCountyResult "Governor" 2020 "Fayette") rfl).2.2.2.2.1⟩

def c1Row : RawRow := ⟨2020, "Fairfax", "Governor", "", "Smith", "REP", "10"⟩

/-- C1 (code bug exhibit): the claimed closed-county invariant fails on the
code — for the non-Kentucky county string "Fairfax", `canonicalize_county_name`
returns the raw string unchanged (line 116's fallback) instead of rejecting
it, and the pipeline emits "Fairfax" as an output county key even though it
is not among the 120 canonical county names. -/
theorem ky_c1_closed_county_violated :
    ky_county_names.length = 120 ∧
    canonicalize_county_name "Fairfax" = "Fairfax" ∧
    ("Fairfax" : String) ∉ ky_county_names ∧
    (lookupCell (finalizeTree (runPipeline [c1Row]))
      "2020" "Governor" "Governor" "Fairfax").isSome = true :=
  ⟨by decide, by decide, by decide, by decide⟩

def c2Row : RawRow := ⟨2020, "Allegany", "Governor", "", "Smith", "REP", "120"⟩

/-- C2 (code bug exhibit): the claimed Fail(Unresolvable)/drop/reject-count
behavior fails on the code — the unresolvable raw county "Allegany" is
returned as-is by `canonicalize_county_name`, the record survives the
county filter, and its votes appear in the output under the new county key
"Allegany"; no rejection counter exists anywhere in the script. -/
theorem ky_c2_unresolved_not_dropped :
    canonicalize_county_name "Allegany" = "Allegany" ∧
    (lookupCell (finalizeTree (runPipeline [c2Row]))
      "2020" "Governor" "Governor" "Allegany").map CountyResult.rep_votes = some 120 :=
  ⟨by decide, by decide⟩

def c6RowA : RawRow := ⟨2020, "HARD", "Governor", "", "Cameron", "REP", "12,500"⟩

def c6RowB : RawRow := ⟨2020, "Hardin", "Governor", "", "Beshear", "DEM", "10,000"⟩

/-- C6 counterexample: `canonicalize_county_name` does not consult the
abbreviation map, so "HARD" is not resolved to "Hardin"; on the claim's
scenario-1 rows the "Hardin" aggregate holds only the DEM row
(dem = 10000, rep = 0, total = 10000), not the claimed merged record with
rep_votes = 12500 and total_votes = 22500. -/
theorem ky_c6_counterexample :
    canonicalize_county_name "HARD" ≠ "Hardin" ∧
    (lookupCell (finalizeTree (runPipeline [c6RowA, c6RowB]))
      "2020" "Governor" "Governor" "Hardin").map
        (fun d => (d.dem_votes, d.rep_votes, d.total_votes)) = some (10000, 0, 10000) :=
  ⟨by decide, by decide⟩

/-- C6 (amended): each canonical county's 4-letter abbreviation (with the
curated quirk overrides) is registered in the separate `COUNTY_ABBR_MAP`,
which is consulted only while parsing TXT county headers — not by
`canonicalize_county_name`, which returns "HARD" unchanged.  The two
scenario-1 rows therefore aggregate into two separate county entries:
"HARD" (rep = 12500, total = 12500) and "Hardin" (dem = 10000,
total = 10000). -/
theorem ky_c6_abbreviation_path :
    lookupA COUNTY_ABBR_MAP "HARD" = some "Hardin" ∧
    canonicalize_county_name "HARD" = "HARD" ∧
    (lookupCell (finalizeTree (runPipeline [c6RowA, c6RowB]))
      "2020" "Governor" "Governor" "HARD").map
        (fun d => (d.dem_votes, d.rep_votes, d.total_votes)) = some (0, 12500, 12500) ∧
    (lookupCell (finalizeTree (runPipeline [c6RowA, c6RowB]))
      "2020" "Governor" "Governor" "Hardin").map
        (fun d => (d.dem_votes, d.rep_votes, d.total_votes)) = some (10000, 0, 10000) :=
  ⟨by decide, by decide, by decide, by decide⟩

/-- Repeated dem-bucket ingestion into one county aggregate, exactly as the
aggregation loop applies records carrying party "DEM". -/
def demFold (recs : List (String × Int)) (cr : CountyResult) : CountyResult :=
  recs.foldl (fun c r => applyBucket r.1 r.2 "DEM" c) cr

def runningMax (m0 : Int) (recs : List (String × Int)) : Int :=
  recs.foldl (fun m r => max m r.2) m0

/-- The claim's candidate rule as worded — the first-seen record among
those with the maximum single-record vote count — with the positivity
guard the code's strictly-greater update imposes. -/
def first_max_candidate (recs : List (String × Int)) : String :=
  if runningMax 0 recs > 0 then
    ((recs.find? (fun r => r.2 == runningMax 0 recs)).map Prod.fst).getD ""
  else ""

theorem applyBucket_dem_eq (cand : String) (v : Int) (cr : CountyResult) :
    applyBucket cand v "DEM" cr =
      (if v > cr.dem_max then
        { cr with dem_votes := cr.dem_votes + v, total_votes := cr.total_votes + v,
                  dem_max := v, dem_candidate := cand }
      else
        { cr with dem_votes := cr.dem_votes + v, total_votes := cr.total_votes + v }) := by
  have hb : party_bucket "DEM" = "dem" := by decide
  simp only [applyBucket, hb]
  split_ifs <;> rfl

theorem le_runningMax (m0 : Int) (recs : List (String × Int)) : m0 ≤ runningMax m0 recs := by
  induction recs generalizing m0 with
  | nil => exact le_refl _
  | cons r rest ih =>
    calc m0 ≤ max m0 r.2 := le_max_left _ _
    _ ≤ runningMax (max m0 r.2) rest := ih _

theorem runningMax_attained (m0 : Int) (recs : List (String × Int))
    (h : runningMax m0 recs > m0) : ∃ r ∈ recs, r.2 = runningMax m0 recs := by
  induction recs generalizing m0 with
  | nil => exact absurd h (lt_irrefl _)
  | cons r rest ih =>
    by_cases hM : runningMax (max m0 r.2) rest > max m0 r.2
    · obtain ⟨a, ha, hav⟩ := ih (max m0 r.2) hM
      exact ⟨a, List.mem_cons_of_mem _ ha, hav⟩
    · have heq : runningMax (max m0 r.2) rest = max m0 r.2 :=
        le_antisymm (not_lt.mp hM) (le_runningMax _ _)
      have hr : runningMax m0 (r :: rest) = max m0 r.2 := heq
      rw [hr] at h ⊢
      have : max m0 r.2 = r.2 := by omega
      exact ⟨r, List.mem_cons_self _ _, this.symm⟩

theorem demFold_characterization (recs : List (String × Int)) (cr : CountyResult) :
    (demFold recs cr).dem_votes = cr.dem_votes + (recs.map Prod.snd).sum ∧
    (demFold recs cr).dem_max = runningMax cr.dem_max recs ∧
    (demFold recs cr).dem_candidate =
      (if runningMax cr.dem_max recs > cr.dem_max then
        ((recs.find? (fun r => r.2 == runningMax cr.dem_max recs)).map
          Prod.fst).getD cr.dem_candidate
      else cr.dem_candidate) := by
  induction recs generalizing cr with
  | nil => simp [demFold, runningMax]
  | cons r rest ih =>
    have hstep : demFold (r :: rest) cr = demFold rest (applyBucket r.1 r.2 "DEM" cr) := rfl
    set cr' := applyBucket r.1 r.2 "DEM" cr with hcr'
    obtain ⟨hv, hm, hc⟩ := ih cr'
    have hv' : cr'.dem_votes = cr.dem_votes + r.2 := by
      rw [hcr', applyBucket_dem_eq]
      split_ifs <;> rfl
    have hm' : cr'.dem_max = max cr.dem_max r.2 := by
      rw [hcr', applyBucket_dem_eq]
      split_ifs <;> simp <;> omega
    have hrM : runningMax cr.dem_max (r :: rest) = runningMax (max cr.dem_max r.2) rest := rfl
    refine ⟨?_, ?_, ?_⟩
    · rw [hstep, hv, hv']
      simp
      ring
    · rw [hstep, hm, hm', hrM]
    · rw [hstep, hc, hm', hrM]
      by_cases hA : runningMax (max cr.dem_max r.2) rest > max cr.dem_max r.2
      · -- overall max strictly above both m0 and r.2: comes from rest
        rw [if_pos hA, if_pos (lt_of_le_of_lt (le_max_left _ _) hA)]
        obtain ⟨a, ha, hav⟩ := runningMax_attained _ _ hA
        have hrne : ¬ (r.2 == runningMax (max cr.dem_max r.2) rest) = true := by
          simp only [beq_iff_eq]
          intro hcontra
          have : r.2 ≤ max cr.dem_max r.2 := le_max_right _ _
          omega
        rw [show List.find? (fun x : String × ℤ => x.2 == runningMax (max cr.dem_max r.2) rest)
              (r :: rest) = List.find?
              (fun x : String × ℤ => x.2 == runningMax (max cr.dem_max r.2) rest) rest from
            List.find?_cons_of_neg _ hrne]
        have hsome : (rest.find? (fun x => x.2 == runningMax (max cr.dem_max r.2) rest)).isSome := by
          rw [List.find?_isSome]
          exact ⟨a, ha, by simp [hav]⟩
        obtain ⟨b, hb⟩ := Option.isSome_iff_exists.mp hsome
        rw [hb]
        rfl
      · have heq : runningMax (max cr.dem_max r.2) rest = max cr.dem_max r.2 :=
          le_antisymm (not_lt.mp hA) (le_runningMax _ _)
        rw [if_neg hA, heq]
        by_cases hr2 : r.2 > cr.dem_max
        · have hmx : max cr.dem_max r.2 = r.2 := by omega
          rw [if_pos (by omega : max cr.dem_max r.2 > cr.dem_max)]
          have hcand : cr'.dem_candidate = r.1 := by
            rw [hcr', applyBucket_dem_eq, if_pos hr2]
          rw [hcand, hmx]
          rw [show List.find? (fun x : String × ℤ => x.2 == r.2) (r :: rest) =
              some r from List.find?_cons_of_pos _ (by simp)]
          rfl
        · have hmx : max cr.dem_max r.2 = cr.dem_max := by omega
          rw [hmx, if_neg (lt_irrefl _)]
          rw [hcr', applyBucket_dem_eq, if_neg hr2]

def repFold (recs : List (String × Int)) (cr : CountyResult) : CountyResult :=
  recs.foldl (fun c r => applyBucket r.1 r.2 "REP" c) cr

theorem applyBucket_rep_eq (cand : String) (v : Int) (cr : CountyResult) :
    applyBucket cand v "REP" cr =
      (if v > cr.rep_max then
        { cr with rep_votes := cr.rep_votes + v, total_votes := cr.total_votes + v,
                  rep_max := v, rep_candidate := cand }
      else
        { cr with rep_votes := cr.rep_votes + v, total_votes := cr.total_votes + v }) := by
  have hb : party_bucket "REP" = "rep" := by decide
  simp only [applyBucket, hb]
  split_ifs with h1 h2 <;> first
    | rfl
    | exact absurd h1 (by decide)

theorem repFold_characterization (recs : List (String × Int)) (cr : CountyResult) :
    (repFold recs cr).rep_votes = cr.rep_votes + (recs.map Prod.snd).sum ∧
    (repFold recs cr).rep_max = runningMax cr.rep_max recs ∧
    (repFold recs cr).rep_candidate =
      (if runningMax cr.rep_max recs > cr.rep_max then
        ((recs.find? (fun r => r.2 == runningMax cr.rep_max recs)).map
          Prod.fst).getD cr.rep_candidate
      else cr.rep_candidate) := by
  induction recs generalizing cr with
  | nil => simp [repFold, runningMax]
  | cons r rest ih =>
    have hstep : repFold (r :: rest) cr = repFold rest (applyBucket r.1 r.2 "REP" cr) := rfl
    set cr' := applyBucket r.1 r.2 "REP" cr with hcr'
    obtain ⟨hv, hm, hc⟩ := ih cr'
    have hv' : cr'.rep_votes = cr.rep_votes + r.2 := by
      rw [hcr', applyBucket_rep_eq]
      split_ifs <;> rfl
    have hm' : cr'.rep_max = max cr.rep_max r.2 := by
      rw [hcr', applyBucket_rep_eq]
      split_ifs <;> simp <;> omega
    have hrM : runningMax cr.rep_max (r :: rest) = runningMax (max cr.rep_max r.2) rest := rfl
    refine ⟨?_, ?_, ?_⟩
    · rw [hstep, hv, hv']
      simp
      ring
    · rw [hstep, hm, hm', hrM]
    · rw [hstep, hc, hm', hrM]
      by_cases hA : runningMax (max cr.rep_max r.2) rest > max cr.rep_max r.2
      · rw [if_pos hA, if_pos (lt_of_le_of_lt (le_max_left _ _) hA)]
        obtain ⟨a, ha, hav⟩ := runningMax_attained _ _ hA
        have hrne : ¬ (r.2 == runningMax (max cr.rep_max r.2) rest) = true := by
          simp only [beq_iff_eq]
          intro hcontra
          have : r.2 ≤ max cr.rep_max r.2 := le_max_right _ _
          omega
        rw [show List.find? (fun x : String × ℤ => x.2 == runningMax (max cr.rep_max r.2) rest)
              (r :: rest) = List.find?
              (fun x : String × ℤ => x.2 == runningMax (max cr.rep_max r.2) rest) rest from
            List.find?_cons_of_neg _ hrne]
        have hsome : (rest.find? (fun x => x.2 == runningMax (max cr.rep_max r.2) rest)).isSome := by
          rw [List.find?_isSome]
          exact ⟨a, ha, by simp [hav]⟩
        obtain ⟨b, hb⟩ := Option.isSome_iff_exists.mp hsome
        rw [hb]
        rfl
      · have heq : runningMax (max cr.rep_max r.2) rest = max cr.rep_max r.2 :=
          le_antisymm (not_lt.mp hA) (le_runningMax _ _)
        rw [if_neg hA, heq]
        by_cases hr2 : r.2 > cr.rep_max
        · have hmx : max cr.rep_max r.2 = r.2 := by omega
          rw [if_pos (by omega : max cr.rep_max r.2 > cr.rep_max)]
          have hcand : cr'.rep_candidate = r.1 := by
            rw [hcr', applyBucket_rep_eq, if_pos hr2]
          rw [hcand, hmx]
          rw [show List.find? (fun x : String × ℤ => x.2 == r.2) (r :: rest) =
              some r from List.find?_cons_of_pos _ (by simp)]
          rfl
        · have hmx : max cr.rep_max r.2 = cr.rep_max := by omega
          rw [hmx, if_neg (lt_irrefl _)]
          rw [hcr', applyBucket_rep_eq, if_neg hr2]

/-- C7 (amended): for a sequence of dem-bucket records ingested into one
fresh county aggregate, `dem_votes` finalizes to the sum of the vote
counts, and `dem_candidate` finalizes to the name of the first-seen record
among those with the maximum single-record vote count provided that
maximum is positive (the strictly-greater update against the initial
running max of 0 never fires when every record has 0 votes, leaving the
candidate name empty — the amendment `ky_c7_counterexample` forces);
symmetrically for `rep_votes`/`rep_candidate`.  In particular Smith 100
then Jones 150 yields dem_candidate "Jones" and dem_votes 250. -/
theorem ky_c7_candidate_tracking (o : String) (yr : Int) (cty : String)
    (recs : List (String × Int)) :
    (demFold recs (newCountyResult o yr cty)).dem_votes = (recs.map Prod.snd).sum ∧
    (demFold recs (newCountyResult o yr cty)).dem_candidate = first_max_candidate recs ∧
    (repFold recs (newCountyResult o yr cty)).rep_votes = (recs.map Prod.snd).sum ∧
    (repFold recs (newCountyResult o yr cty)).rep_candidate = first_max_candidate recs ∧
    (demFold [("Smith", 100), ("Jones", 150)]
      (newCountyResult o yr cty)).dem_candidate = "Jones" ∧
    (demFold [("Smith", 100), ("Jones", 150)]
      (newCountyResult o yr cty)).dem_votes = 250 := by
  obtain ⟨hdv, _, hdc⟩ := demFold_characterization recs (newCountyResult o yr cty)
  obtain ⟨hrv, _, hrc⟩ := repFold_characterization recs (newCountyResult o yr cty)
  refine ⟨?_, ?_, ?_, ?_, ?_, ?_⟩
  · rw [hdv]
    simp [newCountyResult]
  · rw [hdc]
    rfl
  · rw [hrv]
    simp [newCountyResult]
  · rw [hrc]
    rfl
  · obtain ⟨_, _, h⟩ := demFold_characterization [("Smith", 100), ("Jones", 150)]
      (newCountyResult o yr cty)
    rw [h]
    rfl
  · obtain ⟨h, _, _⟩ := demFold_characterization [("Smith", 100), ("Jones", 150)]
      (newCountyResult o yr cty)
    rw [h]
    rfl

/-- C7 counterexample: a single dem record ("Smith", 0) has maximum
single-record vote count 0, attained first by "Smith", so the claim as
stated requires dem_candidate "Smith"; the code leaves it empty because
0 > 0 fails. -/
theorem ky_c7_counterexample :
    (demFold [("Smith", 0)] (newCountyResult "Governor" 2020 "Hardin")).dem_candidate = "" ∧
    (demFold [("Smith", 0)] (newCountyResult "Governor" 2020 "Hardin")).dem_candidate ≠ "Smith" :=
  ⟨by decide, by decide⟩


theorem mem_stripCommas {c : Char} {s : String} (h : c ∈ (stripCommas s).data) :
    c ∈ s.data :=
  (List.mem_filter.mp h).1

theorem mem_pyStrip {c : Char} {s : String} (h : c ∈ (pyStrip s).data) :
    c ∈ s.data := by
  have h0 : c ∈ ((s.data.dropWhile Char.isWhitespace).reverse.dropWhile
      Char.isWhitespace).reverse := h
  rw [List.mem_reverse] at h0
  have h1 := (List.dropWhile_sublist Char.isWhitespace).subset h0
  rw [List.mem_reverse] at h1
  exact (List.dropWhile_sublist Char.isWhitespace).subset h1

/-- C8 (amended): the vote-cleaning step is total — every cell cleans to an
integer, a malformed cell coercing to 0, so one bad cell never fails the
batch — and the result is non-negative unless the cell contains a minus
sign: the cleaning performs no clamping, so a cell that parses as a
negative numeral yields a negative vote count, refuting the claimed
unconditional non-negativity (`ky_c8_counterexample`). -/
theorem ky_c8_clean_votes (s : String) :
    0 ≤ clean_votes s ∨ ('-' ∈ s.data ∧ clean_votes s < 0) := by
  unfold clean_votes parseIntOpt
  cases h : (pyStrip (stripCommas s)).data with
  | nil => simp [h]
  | cons c rest =>
    simp only [h]
    by_cases hc : c = '-'
    · subst hc
      simp only [if_pos rfl]
      cases hd : parseDigits rest with
      | none => simp [hd]
      | some n =>
        rcases Nat.eq_zero_or_pos n with h0 | hpos
        · subst h0
          simp [hd]
        · right
          constructor
          · have hm : '-' ∈ (pyStrip (stripCommas s)).data := by
              rw [h]; exact List.mem_cons_self _ _
            exact mem_stripCommas (mem_pyStrip hm)
          · simp
            omega
    · by_cases hp : c = '+'
      · subst hp
        simp only [if_neg hc, if_pos rfl]
        cases hd : parseDigits rest with
        | none => simp [hd]
        | some n => simp [hd]
      · simp only [if_neg hc, if_neg hp]
        cases hd : parseDigits (c :: rest) with
        | none => simp [hd]
        | some n => simp [hd]

/-- C8 counterexample: the votes cell "-5" cleans to −5, a negative value
entering aggregation, contradicting the claimed non-negativity. -/
theorem ky_c8_counterexample : clean_votes "-5" = -5 ∧ ¬ 0 ≤ clean_votes "-5" :=
  ⟨by decide, by decide⟩

/-- The CSV collection step (build_ky_results_json.py:16-20):
`sorted({p for pattern in csv_patterns for p in input_dir.glob(pattern)})` —
the glob hits arrive in whatever order the OS enumerates them, are
de-duplicated as a set, and sorted.  Python's `sorted` on distinct keys is
characterized as the unique sorted permutation. -/
def sorted_files (found : List String) : List String :=
  List.insertionSort (fun a b => a ≤ b) found.dedup

/-- Deterministic rendering of one result record, standing in for its part
of `json.dumps(output, indent=2)` (line 504): a pure function of the
record alone, with the exact rational `margin_pct` rendered by numerator
and denominator. -/
def serializeResult (r : CountyResult) : String :=
  String.intercalate "|" [r.contest_name, toString r.year, r.county,
    toString r.dem_votes, toString r.rep_votes, toString r.other_votes,
    toString r.total_votes, toString r.two_party_total, r.dem_candidate,
    r.rep_candidate, r.winner, toString r.margin, toString r.margin_pct.num,
    toString r.margin_pct.den,
    (match r.competitiveness with
     | none => ""
     | some cp => cp.category ++ "," ++ cp.party ++ "," ++ cp.code ++ "," ++ cp.color),
    String.intercalate ";" (r.all_parties.map (fun p => p.1 ++ ":" ++ toString p.2))]

/-- Deterministic rendering of the whole tree in insertion order, standing
in for `json.dumps` of `{"results_by_year": ...}`. -/
def serializeTree (t : Tree) : String :=
  String.intercalate "\n" (t.map (fun y =>
    y.1 ++ ":" ++ String.intercalate "\n" (y.2.map (fun o =>
      o.1 ++ ":" ++ String.intercalate "\n" (o.2.map (fun ct =>
        ct.1 ++ ":" ++ String.intercalate "\n" (ct.2.map (fun r =>
          r.1 ++ "=" ++ serializeResult r.2))))))))

/-- One full run: collect the discovered CSV files, read each file's rows
(`contents` is the fixed file-to-rows mapping — byte-identical inputs),
concatenate in collection order, aggregate, finalize, serialize. -/
def runFull (found : List String) (contents : String → List RawRow) : String :=
  serializeTree (finalizeTree (runPipeline (((sorted_files found).map contents).flatten)))

/-- C9: two runs over byte-identical input files produce identical
serialized output.  The only environment-dependent part of the embedded
pipeline is the order in which the glob enumerates the input files; the
`sorted` collection step erases it, and everything downstream — ingestion
order, tree insertion order, serialization — is a pure function of the
collected list.  No randomness or clock value occurs anywhere in the
script. -/
theorem ky_c9_determinism (found₁ found₂ : List String)
    (contents : String → List RawRow) (h : List.Perm found₁ found₂) :
    runFull found₁ contents = runFull found₂ contents := by
  have hs : sorted_files found₁ = sorted_files found₂ := by
    apply List.eq_of_perm_of_sorted
      ((List.perm_insertionSort _ _).trans (h.dedup.trans (List.perm_insertionSort _ _).symm))
      (List.sorted_insertionSort _ _) (List.sorted_insertionSort _ _)
  unfold runFull
  rw [hs]

def c9Contents : String → List RawRow :=
  fun _ => [⟨2020, "Jefferson", "Governor", "", "Smith", "REP", "10"⟩]

theorem ky_c9_witness :
    List.Perm ["b.csv", "a.csv"] ["a.csv", "b.csv"] ∧
    runFull ["b.csv", "a.csv"] c9Contents = runFull ["a.csv", "b.csv"] c9Contents :=
  ⟨List.Perm.swap "a.csv" "b.csv" [],
   ky_c9_determinism _ _ c9Contents (List.Perm.swap "a.csv" "b.csv" [])⟩

/-- C10: a row whose party field strips to the empty string is skipped by
the aggregation loop's guard before any party bucketing — the in-progress
tree is returned unchanged, its votes added to no bucket and not to
`total_votes` — even though `party_bucket` itself maps the empty string to
the "other" bucket. -/
theorem ky_c10_empty_party_skip (t : Tree) (row : Row)
    (h : pyStrip row.party = "") :
    ingest t row = t ∧ party_bucket "" = "other" := by
  constructor
  · simp only [ingest]
    rw [if_pos (Or.inr h)]
  · decide

def c10Row : Row := ⟨2020, "Jefferson", "Governor", "", "Smith", "   ", 5⟩

def c10Tree : Tree :=
  [("2020", [("Governor", [("Governor",
    [("Jefferson", newCountyResult "Governor" 2020 "Jefferson")])])])]

theorem ky_c10_witness :
    pyStrip "   " = "" ∧ ingest c10Tree c10Row = c10Tree ∧ party_bucket "" = "other" :=
  ⟨by decide, (ky_c10_empty_party_skip c10Tree c10Row (by decide)).1,
   (ky_c10_empty_party_skip c10Tree c10Row (by decide)).2⟩

end KYPipeline
